import Mathlib

/-!
Verification development for the WhatsApp bot in `src/bot.js`.

The source is a single-file event-driven bot with three command handlers
(`handleTagAll`, `handleRemind`, `handleRoast`) and two helpers
(`isUserAuthorized`, `getRandomRoast`).  We embed the handlers shallowly:

* JS strings that the code builds or scans character by character are embedded
  as `List Char`; fixed message texts stay as Lean `String` literals with the
  exact source text (apostrophes written with the `\x27` escape).
* Awaited external operations (contact/chat resolution, `sendMessage`,
  `message.reply`) can throw; a handler run is parameterized by an
  environment recording which of these calls succeed, and a run returns the
  list of observable effects (sends, replies, sleeps, logs) plus a flag that
  is true when the handler itself rejects.  Log payloads are abstracted to
  fixed tags; their dynamic parts play no role in any claim.
* `Math.random()`-based selection is abstracted by a natural number `pick`
  reduced modulo the list length, matching the range of
  `Math.floor(Math.random() * length)`.
* JS numbers that the code derives from `parseInt` on digit runs are
  embedded as `Nat` (they are always nonnegative, so `totalSeconds <= 0`
  becomes `totalSeconds = 0`).
-/

/-- JS whitespace class `\s` restricted to the ASCII range (the texts the bot
handles are ASCII; the full JS class additionally has Unicode spaces). -/
def isSpaceJS (c : Char) : Bool :=
  c = ' ' || c = '\t' || c = '\n' || c = '\r' || c = '\x0b' || c = '\x0c'

/-- JS `String.prototype.trim`: drop leading and trailing whitespace. -/
def trimChars (l : List Char) : List Char :=
  ((l.dropWhile isSpaceJS).reverse.dropWhile isSpaceJS).reverse

/-- A group participant as the handlers read it from the external client:
`id._serialized` (bot.js lines 117, 178), `id.user` (line 179) and the
`isAdmin` flag (line 118). -/
structure Participant where
  serialized : String
  user : List Char
  isAdmin : Bool
  deriving DecidableEq, Repr

/-- The chat object as used by the handlers: `isGroup` and `participants`. -/
structure Chat where
  isGroup : Bool
  participants : List Participant
  deriving DecidableEq, Repr

/-- A contact as used by `handleRemind` and `handleRoast`: only its `number`
field appears in constructed texts. -/
structure Contact where
  number : List Char
  deriving DecidableEq, Repr

/-- bot.js lines 22-25: the static super-admin allow-list. -/
def SUPER_ADMINS : List String :=
  ["916239232874@c.us"]

/-- bot.js line 28. -/
def TAG_BATCH_SIZE : Nat := 50

/-- bot.js line 29. -/
def TAG_DELAY_MS : Nat := 1000

/-- bot.js lines 111-123: a sender is authorized when it is a super admin, or
when the chat is a group and the first participant found with the sender id
has the admin flag set. -/
def isUserAuthorized (senderId : String) (chat : Chat) : Bool :=
  if SUPER_ADMINS.contains senderId then
    true
  else if chat.isGroup then
    match chat.participants.find? (fun p => p.serialized == senderId) with
    | some senderParticipant => senderParticipant.isAdmin
    | none => false
  else
    false

/-- The slicing loop of bot.js lines 173-174: contiguous slices of size `B`
in order.  For `B = 0` the JS loop would never terminate; this definition
peels one element per batch in that case and agrees with the source for
every `B > 0` (the source fixes `B = TAG_BATCH_SIZE = 50`). -/
def chunkList (B : Nat) : List α → List (List α)
  | [] => []
  | a :: rest => (a :: rest.take (B - 1)) :: chunkList B (rest.drop (B - 1))
termination_by l => l.length
decreasing_by
  simp only [List.length_drop, List.length_cons]
  omega

/-- The inner loop of bot.js lines 175-180: the message body accumulates one
`@<user> ` fragment per participant and line 181 trims it before sending. -/
def buildBatchText (batch : List Participant) : List Char :=
  trimChars ((batch.map (fun p => '@' :: (p.user ++ [' ']))).flatten)

/-- bot.js line 178: the mentions metadata lists each serialized id in batch
order. -/
def mentionsOf (batch : List Participant) : List String :=
  batch.map (fun p => p.serialized)

/-- bot.js line 165. -/
def notGroupMsg : String :=
  "A novel concept, I know, but this command only functions within a group."

/-- bot.js line 169. -/
def notAdminMsg : String :=
  "An admirable attempt, but this feature requires administrative privileges."

/-- bot.js line 188. -/
def tagApologyMsg : String :=
  "A critical error was encountered during the tagging process. Please try again later."

/-- One observable effect of a handler run. -/
inductive Event where
  | log (tag : String)
  | reply (text : String)
  | send (text : List Char) (mentions : List String)
  | sleep (ms : Nat)
  deriving DecidableEq, Repr

/-- The failure environment of one `handleTagAll` run: which awaited external
calls succeed.  `sendOk k` is the k-th `chat.sendMessage` call and
`replyOk k` the k-th `message.reply` call of the run. -/
structure TagEnv where
  getContactOk : Bool
  getChatOk : Bool
  sendOk : Nat → Bool
  replyOk : Nat → Bool

/-- Result of a handler run: its effects in order, and whether the handler
itself rejected (an exception escaped even the catch block). -/
structure TagOutcome where
  events : List Event
  raised : Bool
  deriving DecidableEq, Repr

/-- The catch block of bot.js lines 186-189: log the error, then attempt one
apology reply; that reply is awaited outside any further try, so its failure
makes the whole handler reject. -/
def tagCatch (pre : List Event) (env : TagEnv) (k : Nat) : TagOutcome :=
  if env.replyOk k then
    { events := pre ++ [Event.log "[ERROR] tagall", Event.reply tagApologyMsg], raised := false }
  else
    { events := pre ++ [Event.log "[ERROR] tagall"], raised := true }

/-- The batch loop of bot.js lines 173-184 under `env`, starting at send
index `k`: per batch one send, one log and one sleep; the first failing send
aborts the loop (second component false), discarding none of the effects
already produced. -/
def runBatches (env : TagEnv) (D : Nat) : Nat → List (List Participant) → List Event × Bool
  | _, [] => ([], true)
  | k, b :: rest =>
    if env.sendOk k then
      let r := runBatches env D (k + 1) rest
      (Event.send (buildBatchText b) (mentionsOf b)
        :: Event.log "[INFO] sent batch" :: Event.sleep D :: r.1, r.2)
    else
      ([], false)

/-- The event trace of the batch loop when every send succeeds: per batch one
send, one log, one sleep, in loop order. -/
def batchEvents (D : Nat) (bs : List (List Participant)) : List Event :=
  (bs.map (fun b =>
    [Event.send (buildBatchText b) (mentionsOf b),
     Event.log "[INFO] sent batch", Event.sleep D])).flatten

/-- bot.js lines 159-190, parameterized by the batch size `B` and delay `D`
(the source fixes `B = TAG_BATCH_SIZE`, `D = TAG_DELAY_MS`). -/
def handleTagAll (env : TagEnv) (senderId : String) (chat : Chat) (B D : Nat) : TagOutcome :=
  if !env.getContactOk then
    tagCatch [] env 0
  else if !env.getChatOk then
    tagCatch [] env 0
  else if !chat.isGroup then
    if env.replyOk 0 then
      { events := [Event.log "[CMD] tagall", Event.reply notGroupMsg], raised := false }
    else
      tagCatch [Event.log "[CMD] tagall"] env 1
  else if !isUserAuthorized senderId chat then
    if env.replyOk 0 then
      { events := [Event.log "[CMD] tagall", Event.reply notAdminMsg], raised := false }
    else
      tagCatch [Event.log "[CMD] tagall"] env 1
  else
    let r := runBatches env D 0 (chunkList B chat.participants)
    if r.2 then
      { events := Event.log "[CMD] tagall" :: Event.log "[INFO] tagging" :: r.1
          ++ [Event.log "[SUCCESS] tagall"],
        raised := false }
    else
      tagCatch (Event.log "[CMD] tagall" :: Event.log "[INFO] tagging" :: r.1) env 0

/-- The send effects of an event list, in order. -/
def sendEvents (evs : List Event) : List (List Char × List String) :=
  evs.filterMap (fun e =>
    match e with
    | Event.send t m => some (t, m)
    | _ => none)

/-- The successful reply effects of an event list, in order. -/
def replyEvents (evs : List Event) : List String :=
  evs.filterMap (fun e =>
    match e with
    | Event.reply t => some t
    | _ => none)

/-- The sleep effects of an event list, in order. -/
def sleepEvents (evs : List Event) : List Nat :=
  evs.filterMap (fun e =>
    match e with
    | Event.sleep d => some d
    | _ => none)

/-- Keep only sends and sleeps, for statements about their interleaving. -/
def sendOrSleep (e : Event) : Bool :=
  match e with
  | Event.send _ _ => true
  | Event.sleep _ => true
  | _ => false

/-- Value of a digit run, as `parseInt(run, 10)` computes it. -/
def digitsValue (ds : List Char) : Nat :=
  ds.foldl (fun a c => a * 10 + (c.toNat - '0'.toNat)) 0

/-- One attempt of the regex `(\d+)\s*u(...)?s?` at the current position: a
nonempty digit run, then optional whitespace, then the unit letter `u` (the
optional tails `(our)?s?` etc. match the empty string, so only the unit
letter is needed for a match).  The capture group is the digit run; greedy
matching with backtracking never accepts a shorter run here, because the
character after a shortened run is a digit, which is neither whitespace nor
a unit letter. -/
def matchUnitAt (u : Char) (s : List Char) : Option Nat :=
  let ds := s.takeWhile Char.isDigit
  if ds.isEmpty then
    none
  else
    match (s.dropWhile Char.isDigit).dropWhile isSpaceJS with
    | c :: _ => if c = u then some (digitsValue ds) else none
    | [] => none

/-- JS `String.prototype.match` without the global flag, as used on bot.js
lines 204-206: the match at the leftmost position where the pattern
succeeds, with capture group 1 converted by `parseInt` (lines 208-210). -/
def findUnit (u : Char) : List Char → Option Nat
  | [] => none
  | c :: rest =>
    match matchUnitAt u (c :: rest) with
    | some n => some n
    | none => findUnit u rest

/-- bot.js lines 202-211: hours, minutes and seconds are matched
independently on the lower-cased command text and summed. -/
def parseDuration (command : List Char) : Nat :=
  let hours := (findUnit 'h' command).getD 0
  let minutes := (findUnit 'm' command).getD 0
  let seconds := (findUnit 's' command).getD 0
  hours * 3600 + minutes * 60 + seconds

/-- bot.js line 213. -/
def remindFormatMsg : String :=
  "The time format provided is indecipherable. Please use a coherent structure, for instance: \x27in 1 hour 30 minutes\x27."

/-- Effects of one `handleRemind` run: successful replies, immediate sends,
and sends scheduled via `setTimeout` as (delay in ms, text, mentions). -/
structure RemindOutcome where
  replies : List String
  sends : List (List Char × List Contact)
  scheduled : List (Nat × List Char × List Contact)
  deriving DecidableEq, Repr

/-- bot.js lines 196-241 on the success-path environment (every awaited
external call succeeds); `mentions` is the result of
`message.getMentions()` and `body` the raw message text. -/
def handleRemind (body : List Char) (sender : Contact) (mentions : List Contact) : RemindOutcome :=
  let command := body.map Char.toLower
  let hours := (findUnit 'h' command).getD 0
  let minutes := (findUnit 'm' command).getD 0
  let seconds := (findUnit 's' command).getD 0
  let totalSeconds := hours * 3600 + minutes * 60 + seconds
  if totalSeconds = 0 then
    { replies := [remindFormatMsg], sends := [], scheduled := [] }
  else
    let targetContact := match mentions with
      | [] => sender
      | m :: _ => m
    let confirmation := trimChars
      ("Acknowledged. A reminder has been scheduled for @".data
        ++ targetContact.number ++ " in ".data
        ++ (if hours > 0 then (toString hours).data ++ " hour(s) ".data else [])
        ++ (if minutes > 0 then (toString minutes).data ++ " minute(s) ".data else [])
        ++ (if seconds > 0 then (toString seconds).data ++ " second(s)".data else []))
    let reminderText := "Attention @".data ++ targetContact.number
      ++ ": This is your scheduled reminder.".data
    { replies := []
      sends := [(confirmation, [targetContact])]
      scheduled := [(totalSeconds * 1000, reminderText, [targetContact])] }

/-- bot.js line 257. -/
def roastUsageMsg : String :=
  "Whom shall I verbally obliterate? Please specify by tagging them. \nUsage: $roast @name"

/-- bot.js line 138. -/
def roastEmptyMsg : String :=
  "I tried to find a roast, but the roast file is empty. My disappointment is immeasurable."

/-- bot.js line 146. -/
def roastMissingMsg : String :=
  "I couldn\x27t find my list of roasts. I guess you\x27re safe... for now."

/-- bot.js lines 133-135: split the file content on newlines and drop the
lines that are blank after trimming. -/
def roastLines (content : List Char) : List (List Char) :=
  (content.splitOn '\n').filter (fun line => !(trimChars line).isEmpty)

/-- getRandomRoast, bot.js lines 130-148.  `res` is `none` when reading
`roasts.txt` throws; `pick` abstracts `Math.random()`: the source indexes
with `Math.floor(Math.random() * roasts.length)`, always in `[0, length)`,
modelled as `pick % roasts.length`. -/
def getRandomRoast (res : Option (List Char)) (pick : Nat) : List Char :=
  match res with
  | none => roastMissingMsg.data
  | some content =>
    let roasts := roastLines content
    if roasts.isEmpty then
      roastEmptyMsg.data
    else
      roasts.getD (pick % roasts.length) []

/-- Effects of one `handleRoast` run. -/
structure RoastOutcome where
  replies : List String
  sends : List (List Char × List Contact)
  deriving DecidableEq, Repr

/-- bot.js lines 248-272 on the success-path environment; `mentions` is the
result of `message.getMentions()`. -/
def handleRoast (mentions : List Contact) (res : Option (List Char)) (pick : Nat) : RoastOutcome :=
  match mentions with
  | [] => { replies := [roastUsageMsg], sends := [] }
  | targetContact :: _ =>
    let roast := getRandomRoast res pick
    let roastMessage := "Attention @".data ++ targetContact.number
      ++ ", a message for you: ".data ++ roast
    { replies := [], sends := [(roastMessage, [targetContact])] }

/-! ### Helper lemmas about the batch partition -/

theorem chunkList_cons (B : Nat) (hB : 0 < B) (a : α) (rest : List α) :
    chunkList B (a :: rest) = (a :: rest).take B :: chunkList B ((a :: rest).drop B) := by
  obtain ⟨B', rfl⟩ : ∃ B', B = B' + 1 := ⟨B - 1, by omega⟩
  simp [chunkList]

theorem chunkList_length (B : Nat) (hB : 0 < B) (l : List α) :
    (chunkList B l).length = (l.length + B - 1) / B := by
  induction l using chunkList.induct B with
  | case1 =>
    simp [chunkList, Nat.div_eq_of_lt (show B - 1 < B by omega)]
  | case2 a rest ih =>
    simp only [chunkList, List.length_cons, ih, List.length_drop]
    rcases le_or_lt B rest.length with h | h
    · have e1 : rest.length - (B - 1) + B - 1 = rest.length := by omega
      have e2 : rest.length + 1 + B - 1 = rest.length + B := by omega
      rw [e1, e2, Nat.add_div_right _ hB]
    · have e1 : rest.length - (B - 1) = 0 := by omega
      have e2 : rest.length + 1 + B - 1 = rest.length + B := by omega
      rw [e1, e2, Nat.add_div_right _ hB, Nat.zero_add,
        Nat.div_eq_of_lt (show B - 1 < B by omega), Nat.div_eq_of_lt h]

theorem chunkList_flatten (B : Nat) (l : List α) :
    (chunkList B l).flatten = l := by
  induction l using chunkList.induct B with
  | case1 => simp [chunkList]
  | case2 a rest ih =>
    simp [chunkList, ih, List.take_append_drop]

theorem chunkList_batch_length_le (B : Nat) (hB : 0 < B) (l : List α) :
    ∀ b ∈ chunkList B l, b.length ≤ B := by
  induction l using chunkList.induct B with
  | case1 => simp [chunkList]
  | case2 a rest ih =>
    intro b hb
    simp only [chunkList, List.mem_cons] at hb
    rcases hb with rfl | hb
    · simp only [List.length_cons, List.length_take]
      omega
    · exact ih b hb

theorem chunkList_batch_ne_nil (B : Nat) (l : List α) :
    ∀ b ∈ chunkList B l, b ≠ [] := by
  induction l using chunkList.induct B with
  | case1 => simp [chunkList]
  | case2 a rest ih =>
    intro b hb
    simp only [chunkList, List.mem_cons] at hb
    rcases hb with rfl | hb
    · simp
    · exact ih b hb

theorem chunkList_mem_of_batch_mem (B : Nat) (l : List α) (b : List α)
    (hb : b ∈ chunkList B l) (x : α) (hx : x ∈ b) : x ∈ l := by
  have : x ∈ (chunkList B l).flatten := List.mem_flatten.2 ⟨b, hb, hx⟩
  rwa [chunkList_flatten] at this

/-! ### Helper lemmas about the tag-all event trace -/

theorem runBatches_all_ok (env : TagEnv) (D : Nat)
    (hsend : ∀ k, env.sendOk k = true) (k : Nat) (bs : List (List Participant)) :
    runBatches env D k bs = (batchEvents D bs, true) := by
  induction bs generalizing k with
  | nil => simp [runBatches, batchEvents]
  | cons b rest ih => simp [runBatches, hsend, batchEvents, ih]

theorem sendEvents_batchEvents (D : Nat) (bs : List (List Participant)) :
    sendEvents (batchEvents D bs) = bs.map (fun b => (buildBatchText b, mentionsOf b)) := by
  induction bs with
  | nil => rfl
  | cons b rest ih =>
    simp only [batchEvents, sendEvents, List.map_cons, List.flatten_cons,
      List.filterMap_append, List.filterMap_cons, List.filterMap_nil] at *
    simp [ih]

theorem filter_sendOrSleep_batchEvents (D : Nat) (bs : List (List Participant)) :
    (batchEvents D bs).filter sendOrSleep
      = (bs.map (fun b =>
          [Event.send (buildBatchText b) (mentionsOf b), Event.sleep D])).flatten := by
  induction bs with
  | nil => rfl
  | cons b rest ih =>
    simp only [batchEvents, List.map_cons, List.flatten_cons, List.filter_append,
      List.filter_cons] at *
    simp [ih, sendOrSleep]

theorem handleTagAll_all_ok (env : TagEnv) (senderId : String) (chat : Chat) (B D : Nat)
    (hgc : env.getContactOk = true) (hch : env.getChatOk = true)
    (hsend : ∀ k, env.sendOk k = true)
    (hgrp : chat.isGroup = true) (hauth : isUserAuthorized senderId chat = true) :
    handleTagAll env senderId chat B D =
      { events := Event.log "[CMD] tagall" :: Event.log "[INFO] tagging"
          :: batchEvents D (chunkList B chat.participants) ++ [Event.log "[SUCCESS] tagall"],
        raised := false } := by
  simp [handleTagAll, hgc, hch, hgrp, hauth, runBatches_all_ok env D hsend]

theorem sendEvents_handleTagAll_all_ok (env : TagEnv) (senderId : String) (chat : Chat)
    (B D : Nat)
    (hgc : env.getContactOk = true) (hch : env.getChatOk = true)
    (hsend : ∀ k, env.sendOk k = true)
    (hgrp : chat.isGroup = true) (hauth : isUserAuthorized senderId chat = true) :
    sendEvents (handleTagAll env senderId chat B D).events
      = (chunkList B chat.participants).map (fun b => (buildBatchText b, mentionsOf b)) := by
  rw [handleTagAll_all_ok env senderId chat B D hgc hch hsend hgrp hauth]
  simp only [sendEvents, List.filterMap_cons, List.filterMap_append, List.filterMap_nil]
  simpa [sendEvents] using sendEvents_batchEvents D (chunkList B chat.participants)

/-! ### Helper lemma about the authorization check -/

theorem find_admin_eq_exists (senderId : String) (ps : List Participant)
    (hnd : (ps.map Participant.serialized).Nodup) :
    (match ps.find? (fun p => p.serialized == senderId) with
      | some p => p.isAdmin
      | none => false) = true
      ↔ ∃ p ∈ ps, p.serialized = senderId ∧ p.isAdmin = true := by
  induction ps with
  | nil => simp
  | cons a ps ih =>
    simp only [List.map_cons, List.nodup_cons, List.mem_map] at hnd
    obtain ⟨ha, hnd'⟩ := hnd
    by_cases h : a.serialized = senderId
    · rw [List.find?_cons_of_pos _ (by simp [h])]
      constructor
      · intro hAdmin
        exact ⟨a, List.mem_cons_self a ps, h, hAdmin⟩
      · rintro ⟨p, hp, hps, hpa⟩
        rcases List.mem_cons.1 hp with rfl | hp'
        · exact hpa
        · exact absurd ⟨p, hp', by rw [hps, ← h]⟩ ha
    · rw [List.find?_cons_of_neg _ (by simp [h])]
      rw [ih hnd']
      constructor
      · rintro ⟨p, hp, hps, hpa⟩
        exact ⟨p, List.mem_cons_of_mem a hp, hps, hpa⟩
      · rintro ⟨p, hp, hps, hpa⟩
        rcases List.mem_cons.1 hp with rfl | hp'
        · exact absurd hps h
        · exact ⟨p, hp', hps, hpa⟩

/-! ### Helper lemmas about the batch message text -/

theorem flatten_map_append_space (toks : List (List Char)) (hne : toks ≠ []) :
    (toks.map (fun t => t ++ [' '])).flatten = [' '].intercalate toks ++ [' '] := by
  induction toks with
  | nil => contradiction
  | cons t rest ih =>
    cases rest with
    | nil => simp [List.intercalate]
    | cons y r =>
      have h1 : [' '].intercalate (t :: y :: r) = t ++ ' ' :: [' '].intercalate (y :: r) := by
        simp [List.intercalate]
      rw [List.map_cons, List.flatten_cons, ih (by simp), h1]
      simp

theorem intercalate_ends_nonspace (toks : List (List Char)) (hne : toks ≠ [])
    (htok : ∀ t ∈ toks, t ≠ [] ∧ ∀ c ∈ t, isSpaceJS c = false) :
    ∃ ys c, [' '].intercalate toks = ys ++ [c] ∧ isSpaceJS c = false := by
  induction toks with
  | nil => contradiction
  | cons t rest ih =>
    cases rest with
    | nil =>
      obtain ⟨hT, hw⟩ := htok t (by simp)
      rcases List.eq_nil_or_concat t with rfl | ⟨ys, c, rfl⟩
      · exact absurd rfl hT
      · exact ⟨ys, c, by simp [List.intercalate], hw c (by simp)⟩
    | cons y r =>
      obtain ⟨ys, c, hrec, hc⟩ := ih (by simp) (fun u hu => htok u (List.mem_cons_of_mem t hu))
      refine ⟨t ++ ' ' :: ys, c, ?_, hc⟩
      simp [List.intercalate] at hrec ⊢
      simp [hrec]

theorem intercalate_head_nonspace (toks : List (List Char)) (hne : toks ≠ [])
    (htok : ∀ t ∈ toks, t ≠ [] ∧ ∀ c ∈ t, isSpaceJS c = false) :
    ∃ d tail, [' '].intercalate toks = d :: tail ∧ isSpaceJS d = false := by
  cases toks with
  | nil => contradiction
  | cons t rest =>
    obtain ⟨hT, hw⟩ := htok t (by simp)
    cases t with
    | nil => exact absurd rfl hT
    | cons d u =>
      have hd : isSpaceJS d = false := hw d (by simp)
      cases rest with
      | nil => exact ⟨d, u, by simp [List.intercalate], hd⟩
      | cons y r =>
        exact ⟨d, u ++ ' ' :: [' '].intercalate (y :: r), by simp [List.intercalate], hd⟩

theorem trimChars_append_space (xs : List Char)
    (hhead : ∃ d tail, xs = d :: tail ∧ isSpaceJS d = false)
    (hlast : ∃ ys c, xs = ys ++ [c] ∧ isSpaceJS c = false) :
    trimChars (xs ++ [' ']) = xs := by
  obtain ⟨d, tail, rfl, hd⟩ := hhead
  obtain ⟨ys, c, hys, hc⟩ := hlast
  unfold trimChars
  have h1 : ((d :: tail) ++ [' ']).dropWhile isSpaceJS = (d :: tail) ++ [' '] := by
    rw [List.cons_append, List.dropWhile_cons]
    simp [hd]
  rw [h1]
  have h2 : ((d :: tail) ++ [' ']).reverse = ' ' :: (d :: tail).reverse := by
    simp
  rw [h2, List.dropWhile_cons]
  simp only [show isSpaceJS ' ' = true from by decide, if_true]
  rw [hys]
  simp [List.dropWhile_cons, hc]

theorem splitOn_space_intercalate (toks : List (List Char)) (hne : toks ≠ [])
    (htok : ∀ t ∈ toks, ∀ c ∈ t, isSpaceJS c = false) :
    ([' '].intercalate toks).splitOn ' ' = toks := by
  refine List.splitOn_intercalate toks ' ' (fun t ht hc => ?_) hne
  have := htok t ht ' ' hc
  simp [isSpaceJS] at this

theorem buildBatchText_eq_intercalate (b : List Participant) (hb : b ≠ [])
    (hws : ∀ p ∈ b, ∀ c ∈ p.user, isSpaceJS c = false) :
    buildBatchText b = [' '].intercalate (b.map (fun p => '@' :: p.user)) := by
  unfold buildBatchText
  have hmap : b.map (fun p => '@' :: (p.user ++ [' ']))
      = (b.map (fun p => '@' :: p.user)).map (fun t => t ++ [' ']) := by
    simp [List.map_map]
  have hne : b.map (fun p => '@' :: p.user) ≠ [] := by
    simpa using hb
  have htok : ∀ t ∈ b.map (fun p => '@' :: p.user), t ≠ [] ∧ ∀ c ∈ t, isSpaceJS c = false := by
    intro t ht
    obtain ⟨p, hp, rfl⟩ := List.mem_map.1 ht
    refine ⟨by simp, ?_⟩
    intro c hc
    rcases List.mem_cons.1 hc with rfl | hc'
    · decide
    · exact hws p hp c hc'
  rw [hmap, flatten_map_append_space _ hne]
  exact trimChars_append_space _ (intercalate_head_nonspace _ hne htok)
    (intercalate_ends_nonspace _ hne htok)

/-! ### Claims -/

/-- C1: for every participant list of length N and batch size B > 0, a
tag-all invocation whose preconditions hold (group chat, authorized sender)
and whose external calls all succeed sends exactly ceil(N/B) = (N + B - 1) / B
outbound tag messages, each mentioning at most B participants, and the
concatenation of the batch mention lists equals the original participant
list (one serialized id per participant) with order preserved. -/
theorem c1_tagall_batching (env : TagEnv) (senderId : String) (chat : Chat) (B D : Nat)
    (hB : 0 < B)
    (hgc : env.getContactOk = true) (hch : env.getChatOk = true)
    (hsend : ∀ k, env.sendOk k = true)
    (hgrp : chat.isGroup = true) (hauth : isUserAuthorized senderId chat = true) :
    (sendEvents (handleTagAll env senderId chat B D).events).length
        = (chat.participants.length + B - 1) / B
      ∧ (∀ m ∈ sendEvents (handleTagAll env senderId chat B D).events, m.2.length ≤ B)
      ∧ ((sendEvents (handleTagAll env senderId chat B D).events).map Prod.snd).flatten
        = chat.participants.map Participant.serialized := by
  rw [sendEvents_handleTagAll_all_ok env senderId chat B D hgc hch hsend hgrp hauth]
  refine ⟨?_, ?_, ?_⟩
  · rw [List.length_map, chunkList_length B hB]
  · intro m hm
    obtain ⟨b, hb, rfl⟩ := List.mem_map.1 hm
    simpa [mentionsOf] using chunkList_batch_length_le B hB chat.participants b hb
  · have h : ((chunkList B chat.participants).map
          (fun b => (buildBatchText b, mentionsOf b))).map Prod.snd
        = (chunkList B chat.participants).map
          (fun b => b.map Participant.serialized) := by
      simp [List.map_map, mentionsOf]
    rw [h]
    conv_rhs => rw [← chunkList_flatten B chat.participants]
    rw [List.map_flatten]

/-- Witness for C1 at a concrete input: three participants, batch size two,
giving two sends. -/
theorem c1_tagall_batching_witness :
    (sendEvents (handleTagAll (TagEnv.mk true true (fun _ => true) (fun _ => true))
        "916239232874@c.us"
        (Chat.mk true [Participant.mk "a@c.us" ['1'] false,
          Participant.mk "b@c.us" ['2'] false, Participant.mk "c@c.us" ['3'] false])
        2 1000).events).length = 2 := by
  have h := c1_tagall_batching (TagEnv.mk true true (fun _ => true) (fun _ => true))
    "916239232874@c.us"
    (Chat.mk true [Participant.mk "a@c.us" ['1'] false,
      Participant.mk "b@c.us" ['2'] false, Participant.mk "c@c.us" ['3'] false])
    2 1000 (by decide) rfl rfl (fun _ => rfl) rfl (by decide)
  simpa using h.1

/-- C2 counterexample, at an input inside the claim's scope of more than one
batch: three participants with batch size two give two batches, and the loop
body of bot.js lines 173-184 sleeps unconditionally after every send, the
last one included.  Restricted to sends and sleeps the trace is send, sleep,
send, sleep — it carries two TAG_DELAY_MS pauses, the second one after the
final batch is sent, where the claim allows only the single pause between
the two consecutive sends and none after the last batch. -/
theorem c2_pause_counterexample :
    (handleTagAll (TagEnv.mk true true (fun _ => true) (fun _ => true))
        "916239232874@c.us"
        (Chat.mk true [Participant.mk "a@c.us" ['1'] false,
          Participant.mk "b@c.us" ['2'] false, Participant.mk "c@c.us" ['3'] false])
        2 TAG_DELAY_MS).events.filter sendOrSleep
      = [Event.send ['@', '1', ' ', '@', '2'] ["a@c.us", "b@c.us"],
         Event.sleep TAG_DELAY_MS,
         Event.send ['@', '3'] ["c@c.us"],
         Event.sleep TAG_DELAY_MS]
      ∧ sleepEvents (handleTagAll (TagEnv.mk true true (fun _ => true) (fun _ => true))
          "916239232874@c.us"
          (Chat.mk true [Participant.mk "a@c.us" ['1'] false,
            Participant.mk "b@c.us" ['2'] false, Participant.mk "c@c.us" ['3'] false])
          2 TAG_DELAY_MS).events = [TAG_DELAY_MS, TAG_DELAY_MS] := by
  rw [handleTagAll_all_ok _ _ _ _ _ rfl rfl (fun _ => rfl) rfl (by decide)]
  have h : chunkList 2
      (Chat.mk true [Participant.mk "a@c.us" ['1'] false,
        Participant.mk "b@c.us" ['2'] false,
        Participant.mk "c@c.us" ['3'] false]).participants
      = [[Participant.mk "a@c.us" ['1'] false, Participant.mk "b@c.us" ['2'] false],
         [Participant.mk "c@c.us" ['3'] false]] := by
    simp [chunkList]
  rw [h]
  constructor
  · decide
  · decide

/-- C2 amended: the D-millisecond suspension occurs after sending every
batch, the final one included; restricted to sends and sleeps, the trace is
exactly send, sleep, send, sleep, ..., send, sleep — so between two
consecutive batch sends there is exactly one D-millisecond pause, and one
further pause follows the last batch. -/
theorem c2_pause_after_every_batch (env : TagEnv) (senderId : String) (chat : Chat)
    (B D : Nat)
    (hgc : env.getContactOk = true) (hch : env.getChatOk = true)
    (hsend : ∀ k, env.sendOk k = true)
    (hgrp : chat.isGroup = true) (hauth : isUserAuthorized senderId chat = true) :
    (handleTagAll env senderId chat B D).events.filter sendOrSleep
      = ((chunkList B chat.participants).map (fun b =>
          [Event.send (buildBatchText b) (mentionsOf b), Event.sleep D])).flatten := by
  rw [handleTagAll_all_ok env senderId chat B D hgc hch hsend hgrp hauth]
  simp only [List.filter_cons, List.filter_append]
  rw [filter_sendOrSleep_batchEvents]
  simp [sendOrSleep]

/-- Witness for C2 amended: one batch gives the trace send-then-sleep. -/
theorem c2_pause_after_every_batch_witness :
    (handleTagAll (TagEnv.mk true true (fun _ => true) (fun _ => true))
        "916239232874@c.us" (Chat.mk true [Participant.mk "a@c.us" ['1'] false])
        TAG_BATCH_SIZE TAG_DELAY_MS).events.filter sendOrSleep
      = [Event.send ['@', '1'] ["a@c.us"], Event.sleep 1000] := by
  have h := c2_pause_after_every_batch (TagEnv.mk true true (fun _ => true) (fun _ => true))
    "916239232874@c.us" (Chat.mk true [Participant.mk "a@c.us" ['1'] false])
    TAG_BATCH_SIZE TAG_DELAY_MS rfl rfl (fun _ => rfl) rfl (by decide)
  rw [h]
  have hc : chunkList TAG_BATCH_SIZE
      (Chat.mk true [Participant.mk "a@c.us" ['1'] false]).participants
      = [[Participant.mk "a@c.us" ['1'] false]] := by
    simp [chunkList, TAG_BATCH_SIZE]
  rw [hc]
  simp [buildBatchText, mentionsOf, trimChars, TAG_DELAY_MS]
  decide

/-- C3 counterexample: the claim reads group-admin membership existentially
(true iff the participant list contains some entry with the sender id whose
admin flag is set), but bot.js line 117 uses `find`, which consults only the
first entry with that id.  In a group whose participant list carries the
same id twice — first entry not admin, second entry admin — the code returns
false for that (non-allow-listed) sender although an admin entry with the id
exists. -/
theorem c3_authorization_counterexample :
    isUserAuthorized "x@c.us"
        (Chat.mk true [Participant.mk "x@c.us" ['x'] false,
          Participant.mk "x@c.us" ['x'] true]) = false
      ∧ ("x@c.us" ∈ SUPER_ADMINS → False)
      ∧ (Chat.mk true [Participant.mk "x@c.us" ['x'] false,
          Participant.mk "x@c.us" ['x'] true]).participants.any
          (fun p => p.serialized == "x@c.us" && p.isAdmin) = true := by
  refine ⟨by decide, by decide, by decide⟩

/-- C3 amended: allow-list membership authorizes regardless of chat type or
group membership; for a non-listed sender the check is first-match — which
coincides with the existential reading whenever the participant ids are
pairwise distinct (the amendment forced by the counterexample) — and a
private (non-group) chat never authorizes a non-listed sender. -/
theorem c3_authorization (senderId : String) (chat : Chat) :
    (senderId ∈ SUPER_ADMINS → isUserAuthorized senderId chat = true)
      ∧ (senderId ∉ SUPER_ADMINS → (chat.participants.map Participant.serialized).Nodup →
          (isUserAuthorized senderId chat = true
            ↔ chat.isGroup = true
              ∧ ∃ p ∈ chat.participants, p.serialized = senderId ∧ p.isAdmin = true))
      ∧ (senderId ∉ SUPER_ADMINS → chat.isGroup = false →
          isUserAuthorized senderId chat = false) := by
  refine ⟨?_, ?_, ?_⟩
  · intro h
    have hc : SUPER_ADMINS.contains senderId = true := by
      simp [List.contains, h]
    simp only [isUserAuthorized, hc, if_true]
  · intro h hnd
    have hc : SUPER_ADMINS.contains senderId = false := by
      simp [List.contains, h]
    by_cases hgrp : chat.isGroup = true
    · rw [isUserAuthorized]
      simp only [hc, Bool.false_eq_true, if_false, hgrp, if_true]
      rw [find_admin_eq_exists senderId chat.participants hnd]
      simp [hgrp]
    · have hgrp' : chat.isGroup = false := by
        cases hg : chat.isGroup
        · rfl
        · exact absurd hg hgrp
      rw [isUserAuthorized]
      simp only [hc, Bool.false_eq_true, if_false, hgrp', if_true]
      simp [hgrp']
  · intro h hgrp
    have hc : SUPER_ADMINS.contains senderId = false := by
      simp [List.contains, h]
    rw [isUserAuthorized]
    simp only [hc, Bool.false_eq_true, if_false, hgrp, if_true]

/-- Witness for C3 amended: the allow-listed sender is authorized in a
private chat; a non-listed sender with a distinct-id admin entry is
authorized in a group; a non-listed sender is refused in a private chat. -/
theorem c3_authorization_witness :
    isUserAuthorized "916239232874@c.us" (Chat.mk false []) = true
      ∧ isUserAuthorized "y@c.us"
          (Chat.mk true [Participant.mk "x@c.us" ['x'] false,
            Participant.mk "y@c.us" ['y'] true]) = true
      ∧ isUserAuthorized "y@c.us" (Chat.mk false []) = false := by
  refine ⟨?_, ?_, ?_⟩
  · exact (c3_authorization "916239232874@c.us" (Chat.mk false [])).1 (by decide)
  · exact ((c3_authorization "y@c.us"
        (Chat.mk true [Participant.mk "x@c.us" ['x'] false,
          Participant.mk "y@c.us" ['y'] true])).2.1 (by decide) (by decide)).2
      ⟨rfl, ⟨Participant.mk "y@c.us" ['y'] true, by decide, rfl, rfl⟩⟩
  · exact (c3_authorization "y@c.us" (Chat.mk false [])).2.2 (by decide) rfl

/-- C4: the Time-Span Parser matches hours, minutes and seconds patterns
independently on the lower-cased text and sums hours*3600 + minutes*60 +
seconds; "remind in 1 hour 30 minutes" parses to 5400 and "remind in 45s"
to 45; and whenever the total is zero — the only way the JS total of
nonnegative parts can be <= 0 — the handler replies with the fixed
format-not-understood message, sends nothing and schedules nothing. -/
theorem c4_remind_timespan (body : List Char) (sender : Contact) (mentions : List Contact)
    (h0 : parseDuration (body.map Char.toLower) = 0) :
    parseDuration ("remind in 1 hour 30 minutes".data) = 5400
      ∧ parseDuration ("remind in 45s".data) = 45
      ∧ (∀ command : List Char,
          parseDuration command
            = (findUnit 'h' command).getD 0 * 3600
              + (findUnit 'm' command).getD 0 * 60
              + (findUnit 's' command).getD 0)
      ∧ handleRemind body sender mentions
        = { replies := [remindFormatMsg], sends := [], scheduled := [] } := by
  refine ⟨by decide, by decide, fun command => rfl, ?_⟩
  have h : (findUnit 'h' (body.map Char.toLower)).getD 0 * 3600
      + (findUnit 'm' (body.map Char.toLower)).getD 0 * 60
      + (findUnit 's' (body.map Char.toLower)).getD 0 = 0 := h0
  simp [handleRemind, h]

/-- Witness for C4: "remind me" has no recognizable unit, so the total is
zero and the handler only replies with the format message. -/
theorem c4_remind_timespan_witness :
    parseDuration ("remind me".data.map Char.toLower) = 0
      ∧ handleRemind ("remind me".data) (Contact.mk ['1']) []
        = { replies := [remindFormatMsg], sends := [], scheduled := [] } := by
  constructor
  · decide
  · exact (c4_remind_timespan ("remind me".data) (Contact.mk ['1']) [] (by decide)).2.2.2

/-- C5 counterexample: the claim says "remind in 1 hour 1 hour" double-counts
both hour phrases to 7200 seconds; the source calls `String.match` without
the global flag (bot.js line 204), which returns only the first match, so
the parser yields 3600. -/
theorem c5_double_count_counterexample :
    parseDuration ("remind in 1 hour 1 hour".data) = 3600
      ∧ (parseDuration ("remind in 1 hour 1 hour".data) = 7200 → False) := by
  refine ⟨by decide, by decide⟩

/-- C5 amended: a repeated occurrence of the same unit is NOT double-counted;
per unit pattern only the leftmost match contributes, so "remind in 1 hour 1
hour" matches hours as 1 and totals 3600 seconds (first-match-wins). -/
theorem c5_first_match_wins :
    findUnit 'h' ("remind in 1 hour 1 hour".data) = some 1
      ∧ parseDuration ("remind in 1 hour 1 hour".data) = 3600 := by
  refine ⟨by decide, by decide⟩

/-- C6: provided contact and chat resolution and the refusal reply succeed,
a tag-all in a non-group chat, or in a group with an unauthorized sender,
produces zero tag sends and exactly one fixed refusal reply, and the two
refusal texts are distinct. -/
theorem c6_tagall_refusals (env : TagEnv) (senderId : String) (chat : Chat) (B D : Nat)
    (hgc : env.getContactOk = true) (hch : env.getChatOk = true)
    (hrep : env.replyOk 0 = true) :
    (chat.isGroup = false →
        sendEvents (handleTagAll env senderId chat B D).events = []
          ∧ replyEvents (handleTagAll env senderId chat B D).events = [notGroupMsg])
      ∧ (chat.isGroup = true → isUserAuthorized senderId chat = false →
          sendEvents (handleTagAll env senderId chat B D).events = []
            ∧ replyEvents (handleTagAll env senderId chat B D).events = [notAdminMsg])
      ∧ notGroupMsg ≠ notAdminMsg := by
  refine ⟨?_, ?_, by decide⟩
  · intro hgrp
    simp [handleTagAll, hgc, hch, hgrp, hrep, sendEvents, replyEvents]
  · intro hgrp hauth
    simp [handleTagAll, hgc, hch, hgrp, hauth, hrep, sendEvents, replyEvents]

/-- Witness for C6: a private chat gets the not-a-group refusal; a group
with a non-admin, non-listed sender gets the privilege refusal. -/
theorem c6_tagall_refusals_witness :
    replyEvents (handleTagAll (TagEnv.mk true true (fun _ => true) (fun _ => true))
        "y@c.us" (Chat.mk false []) 50 1000).events = [notGroupMsg]
      ∧ replyEvents (handleTagAll (TagEnv.mk true true (fun _ => true) (fun _ => true))
          "y@c.us" (Chat.mk true [Participant.mk "x@c.us" ['x'] false]) 50 1000).events
        = [notAdminMsg] := by
  constructor
  · exact ((c6_tagall_refusals (TagEnv.mk true true (fun _ => true) (fun _ => true))
      "y@c.us" (Chat.mk false []) 50 1000 rfl rfl rfl).1 rfl).2
  · exact ((c6_tagall_refusals (TagEnv.mk true true (fun _ => true) (fun _ => true))
      "y@c.us" (Chat.mk true [Participant.mk "x@c.us" ['x'] false]) 50 1000 rfl rfl rfl).2.1
      rfl (by decide)).2

/-- The batch loop when the sends with index below `j` succeed and send `j`
fails: the loop emits the first `j` batches and aborts. -/
theorem runBatches_fail (env : TagEnv) (D : Nat) (j : Nat) (bs : List (List Participant))
    (k : Nat) (hj : j < bs.length)
    (hfail : env.sendOk (k + j) = false) (hok : ∀ i, i < j → env.sendOk (k + i) = true) :
    runBatches env D k bs = (batchEvents D (bs.take j), false) := by
  induction bs generalizing k j with
  | nil => simp at hj
  | cons b rest ih =>
    cases j with
    | zero =>
      simp only [Nat.add_zero] at hfail
      simp [runBatches, hfail, batchEvents]
    | succ j' =>
      have hb : env.sendOk k = true := by
        have := hok 0 (Nat.succ_pos j')
        simpa using this
      have hrec : runBatches env D (k + 1) rest = (batchEvents D (rest.take j'), false) := by
        refine ih j' (k + 1) (by simpa using hj) ?_ ?_
        · have : k + 1 + j' = k + (j' + 1) := by omega
          rw [this]
          exact hfail
        · intro i hi
          have : k + 1 + i = k + (i + 1) := by omega
          rw [this]
          exact hok (i + 1) (by omega)
      simp [runBatches, hb, hrec, batchEvents]

/-- C7 counterexample: the claim says the handler never raises further, even
when the apology reply fails; but the apology `message.reply` on bot.js line
188 is awaited outside any try, so when a send fails and the apology reply
also fails, the handler itself rejects. -/
theorem c7_raise_counterexample :
    (handleTagAll (TagEnv.mk true true (fun _ => false) (fun _ => false))
        "916239232874@c.us" (Chat.mk true [Participant.mk "a@c.us" ['1'] false])
        TAG_BATCH_SIZE TAG_DELAY_MS).raised = true := by
  have hc : chunkList TAG_BATCH_SIZE [Participant.mk "a@c.us" ['1'] false]
      = [[Participant.mk "a@c.us" ['1'] false]] := by
    simp [chunkList, TAG_BATCH_SIZE]
  simp [handleTagAll, hc, runBatches, tagCatch, isUserAuthorized, SUPER_ADMINS]

/-- The batch loop emits no reply events. -/
theorem replyEvents_batchEvents (D : Nat) (bs : List (List Participant)) :
    replyEvents (batchEvents D bs) = [] := by
  induction bs with
  | nil => rfl
  | cons b rest ih =>
    simp only [batchEvents, List.map_cons, List.flatten_cons, replyEvents,
      List.filterMap_append, List.filterMap_cons, List.filterMap_nil] at ih ⊢
    exact ih

/-- What the catch block contributes: no further sends, one error log, and
one attempted apology reply — present and with a normal return when the
reply call succeeds, absent and with the handler rejecting when it fails. -/
theorem tagCatch_spec (pre : List Event) (env : TagEnv) (k : Nat) :
    sendEvents (tagCatch pre env k).events = sendEvents pre
      ∧ Event.log "[ERROR] tagall" ∈ (tagCatch pre env k).events
      ∧ (env.replyOk k = true →
          replyEvents (tagCatch pre env k).events = replyEvents pre ++ [tagApologyMsg]
            ∧ (tagCatch pre env k).raised = false)
      ∧ (env.replyOk k = false →
          replyEvents (tagCatch pre env k).events = replyEvents pre
            ∧ (tagCatch pre env k).raised = true) := by
  by_cases hrep : env.replyOk k = true
  · rw [tagCatch, if_pos hrep]
    refine ⟨?_, by simp, ?_, ?_⟩
    · simp [sendEvents, List.filterMap_append]
    · intro _
      refine ⟨?_, rfl⟩
      simp [replyEvents, List.filterMap_append]
    · intro h
      rw [h] at hrep
      exact absurd hrep (by decide)
  · have hrep' : env.replyOk k = false := by
      cases h : env.replyOk k
      · rfl
      · exact absurd h hrep
    rw [tagCatch, if_neg (by simp [hrep'])]
    refine ⟨?_, by simp, ?_, ?_⟩
    · simp [sendEvents, List.filterMap_append]
    · intro h
      rw [h] at hrep'
      exact absurd hrep' (by decide)
    · intro _
      refine ⟨?_, rfl⟩
      simp [replyEvents, List.filterMap_append]

/-- C7 amended: if any of contact resolution, chat resolution, or a send
raises during a tag-all invocation, the handler aborts its remaining work —
no further batch is sent and the batches already sent are not retried — logs
the error, and attempts exactly one apology reply to the original message;
if the apology reply succeeds the handler returns normally, but if the
apology reply itself fails the handler rejects (raises to its caller), since
the catch-block reply is awaited outside any further try.  The three
conjuncts cover a contact-resolution failure, a chat-resolution failure, and
the first send failure at batch index j. -/
theorem c7_error_handling (env : TagEnv) (senderId : String) (chat : Chat) (B D j : Nat) :
    (env.getContactOk = false →
        sendEvents (handleTagAll env senderId chat B D).events = []
          ∧ Event.log "[ERROR] tagall" ∈ (handleTagAll env senderId chat B D).events
          ∧ (env.replyOk 0 = true →
              replyEvents (handleTagAll env senderId chat B D).events = [tagApologyMsg]
                ∧ (handleTagAll env senderId chat B D).raised = false)
          ∧ (env.replyOk 0 = false →
              replyEvents (handleTagAll env senderId chat B D).events = []
                ∧ (handleTagAll env senderId chat B D).raised = true))
      ∧ (env.getContactOk = true → env.getChatOk = false →
          sendEvents (handleTagAll env senderId chat B D).events = []
            ∧ Event.log "[ERROR] tagall" ∈ (handleTagAll env senderId chat B D).events
            ∧ (env.replyOk 0 = true →
                replyEvents (handleTagAll env senderId chat B D).events = [tagApologyMsg]
                  ∧ (handleTagAll env senderId chat B D).raised = false)
            ∧ (env.replyOk 0 = false →
                replyEvents (handleTagAll env senderId chat B D).events = []
                  ∧ (handleTagAll env senderId chat B D).raised = true))
      ∧ (env.getContactOk = true → env.getChatOk = true →
          chat.isGroup = true → isUserAuthorized senderId chat = true →
          j < (chunkList B chat.participants).length →
          env.sendOk j = false → (∀ i, i < j → env.sendOk i = true) →
          sendEvents (handleTagAll env senderId chat B D).events
              = ((chunkList B chat.participants).take j).map
                (fun b => (buildBatchText b, mentionsOf b))
            ∧ Event.log "[ERROR] tagall" ∈ (handleTagAll env senderId chat B D).events
            ∧ (env.replyOk 0 = true →
                replyEvents (handleTagAll env senderId chat B D).events = [tagApologyMsg]
                  ∧ (handleTagAll env senderId chat B D).raised = false)
            ∧ (env.replyOk 0 = false →
                replyEvents (handleTagAll env senderId chat B D).events = []
                  ∧ (handleTagAll env senderId chat B D).raised = true)) := by
  refine ⟨?_, ?_, ?_⟩
  · intro hgc
    have hout : handleTagAll env senderId chat B D = tagCatch [] env 0 := by
      simp [handleTagAll, hgc]
    rw [hout]
    have h := tagCatch_spec [] env 0
    refine ⟨h.1, h.2.1, ?_, ?_⟩
    · intro hr
      exact h.2.2.1 hr
    · intro hr
      exact h.2.2.2 hr
  · intro hgc hch
    have hout : handleTagAll env senderId chat B D = tagCatch [] env 0 := by
      simp [handleTagAll, hgc, hch]
    rw [hout]
    have h := tagCatch_spec [] env 0
    refine ⟨h.1, h.2.1, ?_, ?_⟩
    · intro hr
      exact h.2.2.1 hr
    · intro hr
      exact h.2.2.2 hr
  · intro hgc hch hgrp hauth hj hfail hok
    have hrb : runBatches env D 0 (chunkList B chat.participants)
        = (batchEvents D ((chunkList B chat.participants).take j), false) :=
      runBatches_fail env D j (chunkList B chat.participants) 0 hj (by simpa using hfail)
        (fun i hi => by simpa using hok i hi)
    have hout : handleTagAll env senderId chat B D
        = tagCatch (Event.log "[CMD] tagall" :: Event.log "[INFO] tagging"
            :: batchEvents D ((chunkList B chat.participants).take j)) env 0 := by
      simp [handleTagAll, hgc, hch, hgrp, hauth, hrb]
    rw [hout]
    have h := tagCatch_spec (Event.log "[CMD] tagall" :: Event.log "[INFO] tagging"
        :: batchEvents D ((chunkList B chat.participants).take j)) env 0
    have hse : sendEvents (Event.log "[CMD] tagall" :: Event.log "[INFO] tagging"
        :: batchEvents D ((chunkList B chat.participants).take j))
        = ((chunkList B chat.participants).take j).map
          (fun b => (buildBatchText b, mentionsOf b)) := by
      simp only [sendEvents, List.filterMap_cons]
      simpa [sendEvents] using
        sendEvents_batchEvents D ((chunkList B chat.participants).take j)
    have hrE : replyEvents (Event.log "[CMD] tagall" :: Event.log "[INFO] tagging"
        :: batchEvents D ((chunkList B chat.participants).take j)) = [] := by
      simp only [replyEvents, List.filterMap_cons]
      simpa [replyEvents] using
        replyEvents_batchEvents D ((chunkList B chat.participants).take j)
    refine ⟨?_, h.2.1, ?_, ?_⟩
    · rw [h.1, hse]
    · intro hr
      obtain ⟨h1, h2⟩ := h.2.2.1 hr
      refine ⟨?_, h2⟩
      rw [h1, hrE]
      rfl
    · intro hr
      obtain ⟨h1, h2⟩ := h.2.2.2 hr
      exact ⟨h1.trans hrE, h2⟩

/-- Witness for C7 amended, exercising both a resolution failure and a send
failure: with contact resolution failing and the apology reply succeeding
the apology is the one reply; with resolution succeeding, the only send
failing, and the apology reply succeeding, nothing is sent and the apology
is the one reply. -/
theorem c7_error_handling_witness :
    replyEvents (handleTagAll (TagEnv.mk false true (fun _ => true) (fun _ => true))
        "916239232874@c.us" (Chat.mk true [Participant.mk "a@c.us" ['1'] false])
        TAG_BATCH_SIZE TAG_DELAY_MS).events = [tagApologyMsg]
      ∧ sendEvents (handleTagAll (TagEnv.mk true true (fun _ => false) (fun _ => true))
          "916239232874@c.us" (Chat.mk true [Participant.mk "a@c.us" ['1'] false])
          TAG_BATCH_SIZE TAG_DELAY_MS).events = []
      ∧ replyEvents (handleTagAll (TagEnv.mk true true (fun _ => false) (fun _ => true))
          "916239232874@c.us" (Chat.mk true [Participant.mk "a@c.us" ['1'] false])
          TAG_BATCH_SIZE TAG_DELAY_MS).events = [tagApologyMsg] := by
  have hc : chunkList TAG_BATCH_SIZE
      (Chat.mk true [Participant.mk "a@c.us" ['1'] false]).participants
      = [[Participant.mk "a@c.us" ['1'] false]] := by
    simp [chunkList, TAG_BATCH_SIZE]
  refine ⟨?_, ?_⟩
  · exact (((c7_error_handling (TagEnv.mk false true (fun _ => true) (fun _ => true))
      "916239232874@c.us" (Chat.mk true [Participant.mk "a@c.us" ['1'] false])
      TAG_BATCH_SIZE TAG_DELAY_MS 0).1 rfl).2.2.1 rfl).1
  · have h := (c7_error_handling (TagEnv.mk true true (fun _ => false) (fun _ => true))
      "916239232874@c.us" (Chat.mk true [Participant.mk "a@c.us" ['1'] false])
      TAG_BATCH_SIZE TAG_DELAY_MS 0).2.2 rfl rfl rfl (by decide)
      (by rw [hc]; decide) rfl (fun i hi => by omega)
    refine ⟨?_, (h.2.2.1 rfl).1⟩
    have h1 := h.1
    rw [hc] at h1
    simpa using h1

/-- C8: the Roast Selector is total and never raises: when reading the
corpus throws it returns the fixed unreadable-resource fallback; with a
readable corpus whose blank-filtered line list is empty it returns the fixed
corpus-empty fallback; and otherwise it returns one of the non-blank lines. -/
theorem c8_roast_selector (res : Option (List Char)) (pick : Nat) :
    (res = none → getRandomRoast res pick = roastMissingMsg.data)
      ∧ (∀ content, res = some content →
          (roastLines content = [] → getRandomRoast res pick = roastEmptyMsg.data)
            ∧ (roastLines content ≠ [] → getRandomRoast res pick ∈ roastLines content)) := by
  constructor
  · intro h
    rw [h]
    rfl
  · intro content h
    subst h
    constructor
    · intro hnil
      simp [getRandomRoast, hnil]
    · intro hne
      have hlen : 0 < (roastLines content).length := List.length_pos.2 hne
      have hmod : pick % (roastLines content).length < (roastLines content).length :=
        Nat.mod_lt _ hlen
      simp only [getRandomRoast]
      rw [if_neg (by simpa [List.isEmpty_iff] using hne)]
      rw [List.getD_eq_getElem?_getD, List.getElem?_eq_getElem hmod]
      exact List.getElem_mem hmod

/-- Witness for C8: an unreadable corpus yields the fallback text, and a
one-line corpus always yields that line. -/
theorem c8_roast_selector_witness :
    getRandomRoast none 0 = roastMissingMsg.data
      ∧ getRandomRoast (some ("only line".data)) 7 ∈ roastLines ("only line".data) := by
  constructor
  · exact (c8_roast_selector none 0).1 rfl
  · exact ((c8_roast_selector (some ("only line".data)) 7).2 ("only line".data) rfl).2
      (by decide)

/-- C9: a roast command that mentions no participant replies with the fixed
usage-instruction message and sends no roast, for every corpus state and
every random pick. -/
theorem c9_roast_no_mention (res : Option (List Char)) (pick : Nat) :
    handleRoast [] res pick = { replies := [roastUsageMsg], sends := [] } := rfl

/-- C10: in every batch message emitted by the tag-all handler, the mentions
metadata is exactly one serialized id per batch participant in batch order,
and the text is one @-prefixed handle token per batch participant joined by
single spaces with the trailing space trimmed — so the number of
space-separated tokens in the text equals the number of mention entries.
The handles are assumed whitespace-free, which is what makes "token" well
defined (WhatsApp user handles are digit strings). -/
theorem c10_batch_message_shape (env : TagEnv) (senderId : String) (chat : Chat) (B D : Nat)
    (hgc : env.getContactOk = true) (hch : env.getChatOk = true)
    (hsend : ∀ k, env.sendOk k = true)
    (hgrp : chat.isGroup = true) (hauth : isUserAuthorized senderId chat = true)
    (hws : ∀ p ∈ chat.participants, ∀ c ∈ p.user, isSpaceJS c = false) :
    sendEvents (handleTagAll env senderId chat B D).events
        = (chunkList B chat.participants).map (fun b => (buildBatchText b, mentionsOf b))
      ∧ ∀ b ∈ chunkList B chat.participants,
          mentionsOf b = b.map Participant.serialized
            ∧ (buildBatchText b).splitOn ' ' = b.map (fun p => '@' :: p.user)
            ∧ ((buildBatchText b).splitOn ' ').length = (mentionsOf b).length := by
  refine ⟨sendEvents_handleTagAll_all_ok env senderId chat B D hgc hch hsend hgrp hauth, ?_⟩
  intro b hb
  have hbne : b ≠ [] := chunkList_batch_ne_nil B chat.participants b hb
  have hwsb : ∀ p ∈ b, ∀ c ∈ p.user, isSpaceJS c = false :=
    fun p hp => hws p (chunkList_mem_of_batch_mem B chat.participants b hb p hp)
  have htoks : ∀ t ∈ b.map (fun p => '@' :: p.user), ∀ c ∈ t, isSpaceJS c = false := by
    intro t ht c hc
    obtain ⟨p, hp, rfl⟩ := List.mem_map.1 ht
    rcases List.mem_cons.1 hc with rfl | hc'
    · decide
    · exact hwsb p hp c hc'
  have hsplit : (buildBatchText b).splitOn ' ' = b.map (fun p => '@' :: p.user) := by
    rw [buildBatchText_eq_intercalate b hbne hwsb]
    exact splitOn_space_intercalate _ (by simpa using hbne) htoks
  refine ⟨rfl, hsplit, ?_⟩
  rw [hsplit]
  simp [mentionsOf]

/-- Witness for C10: two participants with digit handles in one batch — one
send whose text is the two tokens space-joined and whose mentions are the
two serialized ids. -/
theorem c10_batch_message_shape_witness :
    sendEvents (handleTagAll (TagEnv.mk true true (fun _ => true) (fun _ => true))
        "916239232874@c.us"
        (Chat.mk true [Participant.mk "a@c.us" ['1', '1'] false,
          Participant.mk "b@c.us" ['2'] false]) 50 1000).events
      = [(['@', '1', '1', ' ', '@', '2'], ["a@c.us", "b@c.us"])] := by
  have h := c10_batch_message_shape (TagEnv.mk true true (fun _ => true) (fun _ => true))
    "916239232874@c.us"
    (Chat.mk true [Participant.mk "a@c.us" ['1', '1'] false,
      Participant.mk "b@c.us" ['2'] false]) 50 1000
    rfl rfl (fun _ => rfl) rfl (by decide) (by decide)
  rw [h.1]
  have hc : chunkList 50
      (Chat.mk true [Participant.mk "a@c.us" ['1', '1'] false,
        Participant.mk "b@c.us" ['2'] false]).participants
      = [[Participant.mk "a@c.us" ['1', '1'] false, Participant.mk "b@c.us" ['2'] false]] := by
    simp [chunkList]
  rw [hc]
  decide
